import Mathlib

/-!
Verification of the ItchClaim crawl-and-claim engine (`ItchClaim/__main__.py`)
against its specification.  Each Python routine that a claim depends on is
shallowly embedded as an executable Lean definition; network responses and
other external inputs are passed in as explicit arguments (scripts of
responses), so every definition is a pure function of its inputs.
-/

/- ------------------------------------------------------------------ -/
/- Claim submission outcome (`_claim_game` lines 425-436,
   `_claim_reward` lines 360-366).                                     -/
/- ------------------------------------------------------------------ -/

/-- Outcome of the final claim-form submission. -/
inductive ClaimOutcome where
  | success
  | expiredPromotion
  | genericFailure
deriving DecidableEq, Repr

/-- The platform root URL compared against `r.url` after the claim post. -/
def itchRoot : String := "https://itch.io/"

/-- Final-step handling in `_claim_game`: after posting the claim form,
`if r.url == 'https://itch.io/'` the claim failed; inside that branch the body
is searched for the text `promotion is no longer active` (modelled by the
boolean `hasMarker`) to raise the expired-promotion exception rather than the
generic one; any non-root final URL is reported as success. -/
def claimGameFinal (finalUrl : String) (hasMarker : Bool) : ClaimOutcome :=
  if finalUrl = itchRoot then
    if hasMarker then ClaimOutcome.expiredPromotion else ClaimOutcome.genericFailure
  else ClaimOutcome.success

/-- Final-step handling in `_claim_reward`: after posting the claim form,
`if r.url == 'https://itch.io/'` an exception carrying the raw body is raised
(a generic failure — the body is never searched for the no-longer-active
marker); otherwise the claim is reported successful.  The marker flag is
accepted for comparison with `claimGameFinal` but the source never reads it. -/
def claimRewardFinal (finalUrl : String) (_hasMarker : Bool) : ClaimOutcome :=
  if finalUrl = itchRoot then ClaimOutcome.genericFailure else ClaimOutcome.success

/-- The success condition exactly as the spec sentence words it, for comparison:
success iff the final URL differs from the platform root AND the body lacks the
no-longer-active marker. -/
def specClaimSuccess (finalUrl : String) (hasMarker : Bool) : Bool :=
  finalUrl != itchRoot && !hasMarker

/- ------------------------------------------------------------------ -/
/- Free-tier price classifier (`_claim_reward` lines 332-347).          -/
/- ------------------------------------------------------------------ -/

/-- The scan `idx = 0; while not price[idx].isdigit(): idx += 1` of
`_claim_reward`, returning the remainder `price[idx:]` from the first digit
onward; `none` models the `IndexError` raised when the string holds no digit
(the loop runs past the end). -/
def freeScan : List Char → Option (List Char)
  | [] => none
  | c :: cs => if c.isDigit then some (c :: cs) else freeScan cs

/-- The free-tier test of `_claim_reward`: skip the non-digit price run, then
the tier is free exactly when the remainder equals `"0.00"`
(`item['price'][idx:] != '0.00'` skips the tier).  `none` models the exception
path for a price with no digit at all. -/
def isFreeTier (price : String) : Option Bool :=
  (freeScan price.data).map (fun rest => String.mk rest == "0.00")

/- ------------------------------------------------------------------ -/
/- scrape_rewards ignore/active bookkeeping
   (lines 672-699 load, 375-381 update, 808-814 write).                -/
/- ------------------------------------------------------------------ -/

/-- The two persisted URL sets that `scrape_rewards` rewrites at run end. -/
structure RewardSets where
  ignore : Finset String
  active : Finset String

/-- Run-start loading in `scrape_rewards`: every line of `ignore.txt` enters
`ignore_list`; a line of `active.txt` enters `active_list` unless it is owned
or already in `ignore_list`. -/
def loadRewardSets (rawIgnore rawActive : List String) (owned : Finset String) :
    RewardSets :=
  let ig := rawIgnore.toFinset
  { ignore := ig
    active := (rawActive.filter (fun u => u ∉ owned ∧ u ∉ ig)).toFinset }

/-- One candidate evaluation during the run: `_scrape_profile` skips the game
when its URL is owned, active or ignored (lines 506-511); otherwise
`_claim_reward` runs and — in its unconditional tail, lines 375-381 — adds the
URL to `active_list` when `valid_reward` ended up true and to `ignore_list`
otherwise.  The event carries the URL and the computed `valid_reward`. -/
def claimRewardStep (owned : Finset String) (st : RewardSets) (ev : String × Bool) :
    RewardSets :=
  if ev.1 ∈ owned ∨ ev.1 ∈ st.active ∨ ev.1 ∈ st.ignore then st
  else if ev.2 then { st with active := insert ev.1 st.active }
  else { st with ignore := insert ev.1 st.ignore }

/-- A whole `scrape_rewards` run over a list of candidate evaluations: load the
sets, then fold the evaluations; the resulting sets are what the run writes
back to `active.txt` and `ignore.txt`. -/
def scrapeRewardsRun (rawIgnore rawActive : List String) (owned : Finset String)
    (events : List (String × Bool)) : RewardSets :=
  events.foldl (claimRewardStep owned) (loadRewardSets rawIgnore rawActive owned)

/- ------------------------------------------------------------------ -/
/- scrape_sales cursor loop (lines 558-580).                            -/
/- ------------------------------------------------------------------ -/

/-- The id-visiting loop of `scrape_sales`:
`while page_count < scrape_step and scrape_page < scrape_limit`, each
iteration processes sale id `scrape_page` and increments both counters.
Returns the ids processed, in order. -/
def salesLoop (count step page limit : Nat) : List Nat :=
  if h : count < step ∧ page < limit then
    page :: salesLoop (count + 1) step (page + 1) limit
  else []
termination_by limit - page
decreasing_by
  omega

/-- Entry to the loop in `scrape_sales`: `page_count` starts at 0 unless the
starting cursor is 0, in which case both are bumped to 1 (sale 0 is n/a). -/
def scrapeSalesVisits (scrapePage step limit : Nat) : List Nat :=
  if scrapePage = 0 then salesLoop 1 step 1 limit
  else salesLoop 0 step scrapePage limit

/- ------------------------------------------------------------------ -/
/- Fetcher retry loop `_send_web` (lines 274-313).                      -/
/- ------------------------------------------------------------------ -/

/-- One attempt of the `while True` loop in `_send_web`: either the library
call raises `requests.RequestException` (caught and printed, after which the
local `r` keeps whatever it held before), or a response with some HTTP status
is assigned to `r`. -/
inductive WebAttempt where
  | failure
  | response (status : Nat)
deriving DecidableEq, Repr

/-- What a `_send_web` call does once its scripted attempts are consumed. -/
inductive WebResult where
  | returned (status : Nat)
  | uncaughtError
  | retrying
deriving DecidableEq, Repr

/-- The status dispatch at the bottom of the `_send_web` loop: 200, 301, 404
and ≥ 500 break out and return `r`; 429 sleeps and continues; every other
status falls off the dispatch and the loop body runs again. -/
def statusBreaks (s : Nat) : Bool :=
  s == 200 || s == 301 || s == 404 || decide (500 ≤ s)

/-- The `_send_web` loop run against a script of attempt outcomes.  `prev` is
the value held by the local variable `r` when the loop body starts (`none` on
the first attempt, when `r` is still unbound).  After a caught
`RequestException`, control falls through to `if r.status_code == 200` with
`r` unchanged — which on the first attempt dereferences the unbound local and
raises `UnboundLocalError` out of the function (`uncaughtError`); on later
attempts it re-inspects the stale previous status.  `retrying` means the
script ran out while the loop was still going. -/
def sendWeb (prev : Option Nat) : List WebAttempt → WebResult
  | [] => WebResult.retrying
  | a :: rest =>
    let cur : Option Nat :=
      match a with
      | WebAttempt.failure => prev
      | WebAttempt.response s => some s
    match cur with
    | none => WebResult.uncaughtError
    | some s => if statusBreaks s then WebResult.returned s else sendWeb (some s) rest

/- ------------------------------------------------------------------ -/
/- `_dump_log` (lines 264-270) and the run-end log writes of
   `scrape_sales` (lines 653-657).                                     -/
/- ------------------------------------------------------------------ -/

/-- `_dump_log` acting on a file system (mapping a file name to its lines, or
`none` if the file does not exist): with an empty list it returns before any
file operation, so no file is created or truncated; with a non-empty list it
opens the file in `'w'` mode and writes exactly the list's elements, one per
line, in order. -/
def dumpLog (fs : String → Option (List String)) (filename : String)
    (mylist : List String) : String → Option (List String) :=
  if mylist = [] then fs
  else fun name => if name = filename then some mylist else fs name

/-- A file system with no files, for concrete scenarios. -/
def emptyFS : String → Option (List String) := fun _ => none

/- ------------------------------------------------------------------ -/
/- `_claim_game` download-url retry (lines 385-397).                    -/
/- ------------------------------------------------------------------ -/

/-- Shape of one response to the `download_url` post in `_claim_game`:
an error payload whose first error is `invalid game` or `invalid user`, some
other error payload, or a normal payload. -/
inductive DlResp where
  | errInvalid
  | errOther
  | ok
deriving DecidableEq, Repr

/-- Number of `download_url` posts performed by one outer `_claim_game` call,
run against a script pairing each attempt's response with the result
`game.check_redirect_url()` would return at that point.  On an
invalid-game-or-user error with a successful redirect resolution the source
calls `self._claim_game(game)` recursively and returns; every other response
ends the call after its single attempt (raising or proceeding to the download
steps). -/
def claimGameAttempts : List (DlResp × Bool) → Nat
  | [] => 0
  | (DlResp.errInvalid, true) :: rest => 1 + claimGameAttempts rest
  | _ :: _ => 1

/-- The number of consecutive leading script entries that trigger the
recursive retry (invalid-game-or-user error answered by a successful redirect
resolution). -/
def leadingRetries : List (DlResp × Bool) → Nat
  | (DlResp.errInvalid, true) :: rest => 1 + leadingRetries rest
  | _ => 0

/- ------------------------------------------------------------------ -/
/- Report inserter `make_report._sale_add` (lines 894-914).             -/
/- ------------------------------------------------------------------ -/

/-- One sale group of `make_report` (`_sale_item`): sale id, member game
URLs (`list` in the source), and the start/end date strings read off the sale
page.  The Python `end` field is named `stop` here (`end` is a Lean keyword);
only `start` takes part in the ordering. -/
structure SaleItem where
  id : Option String
  games : List String
  start : String
  stop : String

/-- `_sale_add`: scan for the first index whose entry's start date makes the
order test break — `item.start < list[idx].start` when `order` is true,
`item.start > list[idx].start` when false — and insert the item there (at the
end when no index breaks). -/
def saleAdd : List SaleItem → SaleItem → Bool → List SaleItem
  | [], item, _ => [item]
  | x :: xs, item, order =>
    if (if order then item.start < x.start else item.start > x.start) then
      item :: x :: xs
    else
      x :: saleAdd xs item order

/-- The sort key relation `_sale_add` maintains: ascending start dates when
`order` is true (the future report), descending when false (the miss and
sales reports). -/
def saleOrd (order : Bool) (a b : SaleItem) : Prop :=
  if order then a.start ≤ b.start else b.start ≤ a.start

instance (order : Bool) (a b : SaleItem) : Decidable (saleOrd order a b) := by
  unfold saleOrd
  exact if h : order then by
    simp only [h, if_true]
    exact inferInstance
  else by
    simp only [h, if_false]
    exact inferInstance

/- ------------------------------------------------------------------ -/
/- Direct-claim candidate filter loops (`claim` lines 128-136,
   `_claim_free` lines 452-458).                                       -/
/- ------------------------------------------------------------------ -/

/-- The inner loop of the candidate filter:
`for owned_url in [...]: if owned_url == url: continue`.  Both branches do
nothing but move to the next owned URL; the surrounding state `st` is never
touched. -/
def ownedUrlScan {σ : Type} (st : σ) (url : String) : List String → σ
  | [] => st
  | owned :: rest =>
    if owned = url then ownedUrlScan st url rest else ownedUrlScan st url rest

/-- The operations the candidate-filter loops perform on the ambient run
state: reading the owned games' URLs, the `owns_game` membership test, and
the claim action (`claim_game` plus bookkeeping in `claim`, `_claim_game` in
`_claim_free`), all left abstract so the equivalence holds for any
behaviour of these collaborators. -/
structure ClaimCtx (σ : Type) where
  ownedUrls : σ → List String
  owns : σ → String → Bool
  claim : σ → String → σ

/-- The candidate loop as written (`claim` / `_claim_free`): per game, run the
inner owned-URL scan, then test `owns_game` and claim if unowned. -/
def claimPassOrig {σ : Type} (ctx : ClaimCtx σ) (url : String) :
    σ → List String → σ
  | st, [] => st
  | st, g :: gs =>
    let st1 := ownedUrlScan st url (ctx.ownedUrls st)
    let st2 := if ctx.owns st1 g then st1 else ctx.claim st1 g
    claimPassOrig ctx url st2 gs

/-- The candidate loop with the inner owned-URL scan removed, as the spec
describes the cleaned-up behaviour. -/
def claimPassNoScan {σ : Type} (ctx : ClaimCtx σ) (url : String) :
    σ → List String → σ
  | st, [] => st
  | st, g :: gs =>
    let st2 := if ctx.owns st g then st else ctx.claim st g
    claimPassNoScan ctx url st2 gs

/- ------------------------------------------------------------------ -/
/- Helper lemmas.                                                      -/
/- ------------------------------------------------------------------ -/

theorem freeScan_append (pre rest : List Char)
    (hpre : ∀ c ∈ pre, c.isDigit = false) :
    freeScan (pre ++ rest) = freeScan rest := by
  induction pre with
  | nil => rfl
  | cons c cs ih =>
    have hc : c.isDigit = false := hpre c (List.mem_cons_self c cs)
    have hcs : ∀ d ∈ cs, d.isDigit = false := fun d hd => hpre d (List.mem_cons_of_mem c hd)
    simp [freeScan, hc, ih hcs]

theorem claimRewardStep_disjoint (owned : Finset String) (st : RewardSets)
    (ev : String × Bool) (h : Disjoint st.ignore st.active) :
    Disjoint (claimRewardStep owned st ev).ignore (claimRewardStep owned st ev).active := by
  unfold claimRewardStep
  by_cases hguard : ev.1 ∈ owned ∨ ev.1 ∈ st.active ∨ ev.1 ∈ st.ignore
  · simpa [hguard] using h
  · have hact : ev.1 ∉ st.active := fun hm => hguard (Or.inr (Or.inl hm))
    have hign : ev.1 ∉ st.ignore := fun hm => hguard (Or.inr (Or.inr hm))
    rw [if_neg hguard]
    by_cases hv : ev.2 = true
    · rw [if_pos hv]
      exact Finset.disjoint_insert_right.mpr ⟨hign, h⟩
    · rw [if_neg hv]
      exact Finset.disjoint_insert_left.mpr ⟨hact, h⟩

theorem foldl_claimRewardStep_disjoint (owned : Finset String)
    (events : List (String × Bool)) :
    ∀ st : RewardSets, Disjoint st.ignore st.active →
      Disjoint (events.foldl (claimRewardStep owned) st).ignore
        (events.foldl (claimRewardStep owned) st).active := by
  induction events with
  | nil => intro st h; simpa using h
  | cons ev evs ih =>
    intro st h
    exact ih (claimRewardStep owned st ev) (claimRewardStep_disjoint owned st ev h)

theorem salesLoop_range (k : Nat) :
    ∀ count page step : Nat, count + k ≤ step →
      salesLoop count step page (page + k) = List.range' page k := by
  induction k with
  | zero =>
    intro count page step _
    unfold salesLoop
    rw [dif_neg]
    · rfl
    · omega
  | succ k ih =>
    intro count page step h
    unfold salesLoop
    rw [dif_pos (by omega)]
    have hrec : salesLoop (count + 1) step (page + 1) ((page + 1) + k) =
        List.range' (page + 1) k := ih (count + 1) (page + 1) step (by omega)
    have harg : page + (k + 1) = (page + 1) + k := by omega
    rw [harg, hrec, List.range'_succ]

theorem claimGameAttempts_le (script : List (DlResp × Bool)) :
    claimGameAttempts script ≤ 1 + leadingRetries script := by
  induction script with
  | nil => simp [claimGameAttempts, leadingRetries]
  | cons e rest ih =>
    rcases e with ⟨resp, redir⟩
    cases resp with
    | errInvalid =>
      cases redir with
      | true =>
        simp only [claimGameAttempts, leadingRetries]
        omega
      | false => simp [claimGameAttempts, leadingRetries]
    | errOther => simp [claimGameAttempts, leadingRetries]
    | ok => simp [claimGameAttempts, leadingRetries]

theorem mem_saleAdd (l : List SaleItem) (item : SaleItem) (order : Bool)
    (y : SaleItem) (hy : y ∈ saleAdd l item order) : y = item ∨ y ∈ l := by
  induction l with
  | nil =>
    simp only [saleAdd, List.mem_singleton] at hy
    exact Or.inl hy
  | cons x xs ih =>
    unfold saleAdd at hy
    by_cases hb : (if order then item.start < x.start else item.start > x.start)
    · rw [if_pos hb] at hy
      rcases List.mem_cons.mp hy with h | h
      · exact Or.inl h
      · exact Or.inr h
    · rw [if_neg hb] at hy
      rcases List.mem_cons.mp hy with h | h
      · exact Or.inr (List.mem_cons.mpr (Or.inl h))
      · rcases ih h with h' | h'
        · exact Or.inl h'
        · exact Or.inr (List.mem_cons.mpr (Or.inr h'))

theorem ownedUrlScan_eq {σ : Type} (st : σ) (url : String) (l : List String) :
    ownedUrlScan st url l = st := by
  induction l with
  | nil => rfl
  | cons owned rest ih =>
    unfold ownedUrlScan
    by_cases h : owned = url <;> simp [h, ih]

/- ------------------------------------------------------------------ -/
/- Claim theorems.                                                     -/
/- ------------------------------------------------------------------ -/

/-- Claim C1, counterexample: with a non-root final URL whose body carries the
`promotion is no longer active` marker, `_claim_game` reports success, while
the claim's condition (non-root AND marker absent) calls it a failure — the
marker is never consulted on the non-root path. -/
theorem c1_success_condition_counterexample :
    claimGameFinal "https://itch.io/mygame/download/123" true = ClaimOutcome.success ∧
    specClaimSuccess "https://itch.io/mygame/download/123" true = false := by
  decide

/-- Claim C1 (amended): in both claim machines the claim is reported
successful iff the final response URL is not the platform root; the
no-longer-active marker plays no part in the success decision.  When the final
URL is the root, only `_claim_game` uses the marker to raise the
expired-promotion failure instead of the generic one; `_claim_reward` raises a
generic failure without inspecting the body. -/
theorem c1_claim_success_amended (finalUrl : String) (hasMarker : Bool) :
    ((claimGameFinal finalUrl hasMarker = ClaimOutcome.success) ↔ finalUrl ≠ itchRoot) ∧
    ((claimRewardFinal finalUrl hasMarker = ClaimOutcome.success) ↔ finalUrl ≠ itchRoot) ∧
    ((claimGameFinal finalUrl hasMarker = ClaimOutcome.expiredPromotion) ↔
      (finalUrl = itchRoot ∧ hasMarker = true)) ∧
    claimRewardFinal finalUrl hasMarker ≠ ClaimOutcome.expiredPromotion := by
  by_cases h : finalUrl = itchRoot <;> cases hasMarker <;>
    simp [claimGameFinal, claimRewardFinal, h]

/-- Claim C2: for a price string made of a run of non-digit characters
followed by a remainder that is empty or starts with a digit, the free-tier
classifier of `_claim_reward` accepts the tier exactly when that remainder
equals `"0.00"`. -/
theorem c2_free_tier_classifier (pre rest : List Char)
    (hpre : ∀ c ∈ pre, c.isDigit = false)
    (hrest : ∀ c, rest.head? = some c → c.isDigit = true) :
    isFreeTier (String.mk (pre ++ rest)) = some true ↔ String.mk rest = "0.00" := by
  unfold isFreeTier
  rw [show (String.mk (pre ++ rest)).data = pre ++ rest from rfl,
    freeScan_append pre rest hpre]
  cases rest with
  | nil =>
    constructor
    · intro h
      simp [freeScan] at h
    · intro h
      exact absurd h (by decide)
  | cons c cs =>
    have hc : c.isDigit = true := hrest c rfl
    simp [freeScan, hc]

/-- Witness for C2 at the spec's example prices. -/
theorem c2_free_tier_classifier_witness :
    isFreeTier "$0.00" = some true ∧ isFreeTier "€0.00" = some true ∧
    isFreeTier "0.00" = some true ∧ isFreeTier "5.00" = some false ∧
    isFreeTier "0.99" = some false := by
  refine ⟨?_, by decide, by decide, by decide, by decide⟩
  exact (c2_free_tier_classifier ['$'] "0.00".data (by decide) (by decide)).mpr rfl

/-- Claim C3: after any `scrape_rewards` run — loading `ignore.txt` and
`active.txt` as the source does and folding any sequence of candidate
evaluations — the ignore set and the active set written back at run end are
disjoint. -/
theorem c3_ignore_active_disjoint (rawIgnore rawActive : List String)
    (owned : Finset String) (events : List (String × Bool)) :
    Disjoint (scrapeRewardsRun rawIgnore rawActive owned events).ignore
      (scrapeRewardsRun rawIgnore rawActive owned events).active := by
  apply foldl_claimRewardStep_disjoint
  rw [Finset.disjoint_left]
  intro a ha hmem
  simp only [loadRewardSets, List.mem_toFinset, List.mem_filter,
    decide_eq_true_eq] at ha hmem
  exact hmem.2.2 ha

/-- Claim C4: starting at cursor `N ≥ 1` with limit `N + k`, `k ≤ scrape_step`,
the `scrape_sales` loop visits exactly the sale ids in `[N, N + k)`, each id
once, in ascending order, and never an id below `N`. -/
theorem c4_scrape_sales_range (N k step : Nat) (h1 : 1 ≤ N) (h2 : k ≤ step) :
    scrapeSalesVisits N step (N + k) = List.range' N k ∧
    (∀ i, i ∈ scrapeSalesVisits N step (N + k) ↔ N ≤ i ∧ i < N + k) ∧
    (scrapeSalesVisits N step (N + k)).Nodup ∧
    (scrapeSalesVisits N step (N + k)).Pairwise (· < ·) := by
  have hvis : scrapeSalesVisits N step (N + k) = List.range' N k := by
    unfold scrapeSalesVisits
    rw [if_neg (by omega)]
    exact salesLoop_range k 0 N step (by omega)
  refine ⟨hvis, ?_, ?_, ?_⟩
  · intro i
    rw [hvis]
    exact List.mem_range'_1
  · rw [hvis]
    exact List.nodup_range' N k
  · rw [hvis]
    exact List.pairwise_lt_range' N k

/-- Witness for C4 at cursor 3, limit 3 + 2, step 5. -/
theorem c4_scrape_sales_range_witness :
    scrapeSalesVisits 3 5 (3 + 2) = List.range' 3 2 ∧
    (4 ∈ scrapeSalesVisits 3 5 (3 + 2) ↔ 3 ≤ 4 ∧ 4 < 3 + 2) ∧
    (scrapeSalesVisits 3 5 (3 + 2)).Nodup :=
  ⟨(c4_scrape_sales_range 3 2 5 (by decide) (by decide)).1,
   (c4_scrape_sales_range 3 2 5 (by decide) (by decide)).2.1 4,
   (c4_scrape_sales_range 3 2 5 (by decide) (by decide)).2.2.1⟩

/-- Claim C5, evaluated at the failing input: a transport-level failure on the
very first attempt of `_send_web` leaves the local `r` unbound, so the
fall-through status inspection raises `UnboundLocalError` out of `_send_web`
instead of logging and retrying as the claim (and the retry intent of the
`except` clause) requires. -/
theorem c5_first_attempt_failure_raises :
    sendWeb none [WebAttempt.failure] = WebResult.uncaughtError := rfl

/-- Claim C6, counterexample: `scrape_sales` persists its logs through
`_dump_log`, which opens the file in `'w'` mode; a later run with its own
entries overwrites the file, so an entry persisted by an earlier run is gone
rather than appended to. -/
theorem c6_append_semantics_counterexample :
    dumpLog (dumpLog emptyFS "itch-miss.txt" ["https://itch.io/s/1"])
        "itch-miss.txt" ["https://itch.io/s/2"] "itch-miss.txt" =
      some ["https://itch.io/s/2"] ∧
    "https://itch.io/s/1" ∉ ["https://itch.io/s/2"] := by
  constructor
  · rfl
  · decide

/-- Claim C6 (amended): the miss/future/mismatch logs are persisted with
overwrite semantics: a later run that produced entries replaces the file with
exactly its own entries, and an earlier run's entries survive only when the
later run produced no entries for that log (in which case the file is left
untouched). -/
theorem c6_overwrite_semantics (fs : String → Option (List String))
    (fname : String) (l1 l2 : List String) :
    dumpLog (dumpLog fs fname l1) fname l2 fname =
      if l2 = [] then dumpLog fs fname l1 fname else some l2 := by
  unfold dumpLog
  by_cases h2 : l2 = [] <;> by_cases h1 : l1 = [] <;> simp [h1, h2]

/-- Claim C7, counterexample: when every `download_url` response reports
`invalid game` and every redirect resolution succeeds, the recursive retry of
`_claim_game` runs again at each level — three scripted responses already
yield three attempts, beyond the claimed two-attempt bound. -/
theorem c7_two_attempt_counterexample :
    claimGameAttempts
        [(DlResp.errInvalid, true), (DlResp.errInvalid, true), (DlResp.errInvalid, true)] = 3 ∧
    ¬ (claimGameAttempts
        [(DlResp.errInvalid, true), (DlResp.errInvalid, true), (DlResp.errInvalid, true)] ≤ 2) := by
  decide

/-- Claim C7 (amended): each `_claim_game` level retries at most once, so the
number of download-url attempts is at most two whenever at most one response
is an invalid-game-or-user error answered by a successful redirect resolution;
the code itself imposes no two-attempt bound when that happens repeatedly. -/
theorem c7_retry_bound (script : List (DlResp × Bool))
    (h : leadingRetries script ≤ 1) :
    claimGameAttempts script ≤ 2 :=
  le_trans (claimGameAttempts_le script) (by omega)

/-- Witness for C7 (amended): one invalid-with-redirect response followed by a
normal one gives two attempts. -/
theorem c7_retry_bound_witness :
    leadingRetries [(DlResp.errInvalid, true), (DlResp.ok, false)] ≤ 1 ∧
    claimGameAttempts [(DlResp.errInvalid, true), (DlResp.ok, false)] ≤ 2 :=
  ⟨by decide, c7_retry_bound [(DlResp.errInvalid, true), (DlResp.ok, false)] (by decide)⟩

theorem saleAdd_sorted_asc (l : List SaleItem) (item : SaleItem)
    (h : l.Pairwise (fun a b => a.start ≤ b.start)) :
    (saleAdd l item true).Pairwise (fun a b => a.start ≤ b.start) := by
  induction l with
  | nil => simp [saleAdd]
  | cons x xs ih =>
    rcases List.pairwise_cons.mp h with ⟨hx, hxs⟩
    by_cases hb : item.start < x.start
    · have heq : saleAdd (x :: xs) item true = item :: x :: xs := by
        simp [saleAdd, hb]
      rw [heq]
      refine List.pairwise_cons.mpr ⟨?_, h⟩
      intro y hy
      rcases List.mem_cons.mp hy with rfl | hy'
      · exact le_of_lt hb
      · exact le_trans (le_of_lt hb) (hx y hy')
    · have heq : saleAdd (x :: xs) item true = x :: saleAdd xs item true := by
        simp [saleAdd, hb]
      rw [heq]
      refine List.pairwise_cons.mpr ⟨?_, ih hxs⟩
      intro y hy
      rcases mem_saleAdd xs item true y hy with rfl | hy'
      · exact le_of_not_lt hb
      · exact hx y hy'

theorem saleAdd_sorted_desc (l : List SaleItem) (item : SaleItem)
    (h : l.Pairwise (fun a b => b.start ≤ a.start)) :
    (saleAdd l item false).Pairwise (fun a b => b.start ≤ a.start) := by
  induction l with
  | nil => simp [saleAdd]
  | cons x xs ih =>
    rcases List.pairwise_cons.mp h with ⟨hx, hxs⟩
    by_cases hb : item.start > x.start
    · have heq : saleAdd (x :: xs) item false = item :: x :: xs := by
        simp [saleAdd, hb]
      rw [heq]
      refine List.pairwise_cons.mpr ⟨?_, h⟩
      intro y hy
      rcases List.mem_cons.mp hy with rfl | hy'
      · exact le_of_lt hb
      · exact le_trans (hx y hy') (le_of_lt hb)
    · have heq : saleAdd (x :: xs) item false = x :: saleAdd xs item false := by
        simp [saleAdd, hb]
      rw [heq]
      refine List.pairwise_cons.mpr ⟨?_, ih hxs⟩
      intro y hy
      rcases mem_saleAdd xs item false y hy with rfl | hy'
      · exact le_of_not_lt hb
      · exact hx y hy'

/-- Claim C8: `_sale_add` inserts at the first index whose start date fails
the order test, so a list sorted ascending by start date (order true, the
future report) or descending (order false, the miss report) is still sorted
the same way after insertion. -/
theorem c8_sale_add_sorted (order : Bool) (l : List SaleItem) (item : SaleItem)
    (h : l.Pairwise (saleOrd order)) :
    (saleAdd l item order).Pairwise (saleOrd order) := by
  cases order with
  | true =>
    have h' : l.Pairwise (fun a b => a.start ≤ b.start) :=
      h.imp (fun hab => by simpa [saleOrd] using hab)
    exact (saleAdd_sorted_asc l item h').imp (fun hab => by simpa [saleOrd] using hab)
  | false =>
    have h' : l.Pairwise (fun a b => b.start ≤ a.start) :=
      h.imp (fun hab => by simpa [saleOrd] using hab)
    exact (saleAdd_sorted_desc l item h').imp (fun hab => by simpa [saleOrd] using hab)

/-- Witness for C8: inserting into a sorted one-element future report keeps it
sorted. -/
theorem c8_sale_add_sorted_witness :
    ([⟨some "https://itch.io/s/1", [], "2024-01-01", "2024-01-08"⟩] :
        List SaleItem).Pairwise (saleOrd true) ∧
    (saleAdd [⟨some "https://itch.io/s/1", [], "2024-01-01", "2024-01-08"⟩]
        ⟨some "https://itch.io/s/2", [], "2024-02-01", "2024-02-09"⟩
        true).Pairwise (saleOrd true) :=
  ⟨by simp, c8_sale_add_sorted true
    [⟨some "https://itch.io/s/1", [], "2024-01-01", "2024-01-08"⟩]
    ⟨some "https://itch.io/s/2", [], "2024-02-01", "2024-02-09"⟩ (by simp)⟩

/-- Claim C9: the inner loop of the direct-claim candidate filter comparing
each owned game's URL to the outer `url` parameter is a no-op; with it removed
the pass is behaviourally identical for every state type, every behaviour of
the ownership test and the claim action, every starting state and every game
list. -/
theorem c9_dead_scan_equivalence {σ : Type} (ctx : ClaimCtx σ) (url : String)
    (st : σ) (games : List String) :
    claimPassOrig ctx url st games = claimPassNoScan ctx url st games := by
  induction games generalizing st with
  | nil => rfl
  | cons g gs ih =>
    unfold claimPassOrig claimPassNoScan
    rw [ownedUrlScan_eq]
    exact ih _

/-- Claim C10: `_dump_log` with an empty list performs no file operation (no
file is created or truncated, so earlier contents survive), and with a
non-empty list it overwrites the named file so that its contents are exactly
the list's elements, one per line, in order, leaving every other file
untouched. -/
theorem c10_dump_log_frame (fs : String → Option (List String)) (fname : String)
    (l : List String) :
    (dumpLog fs fname [] = fs) ∧
    (l ≠ [] → (dumpLog fs fname l fname = some l ∧
      ∀ name, name ≠ fname → dumpLog fs fname l name = fs name)) := by
  constructor
  · simp [dumpLog]
  · intro hl
    constructor
    · simp [dumpLog, hl]
    · intro name hname
      simp [dumpLog, hl, hname]

/-- Witness for C10 on a concrete non-empty write over an empty file system,
plus the empty-list no-op. -/
theorem c10_dump_log_frame_witness :
    dumpLog emptyFS "itch-miss.txt" ["https://itch.io/s/1"] "itch-miss.txt" =
      some ["https://itch.io/s/1"] ∧
    dumpLog emptyFS "itch-miss.txt" [] = emptyFS :=
  ⟨((c10_dump_log_frame emptyFS "itch-miss.txt" ["https://itch.io/s/1"]).2
      (by decide)).1,
   (c10_dump_log_frame emptyFS "itch-miss.txt" ["https://itch.io/s/1"]).1⟩
